import Mathlib

/-!
Verification of the command parser and builder-style data records of the
`telegram-parts` repository. Strings are modelled as lists of Unicode scalar
values (`List Char`), with explicit UTF-8 byte lengths and UTF-16 code-unit
encoding mirroring the Rust operations used by the source
(`str::find`, `str::len`, `encode_utf16`, `String::from_utf16`,
`split_whitespace`).
-/

/-- UTF-8 byte length of a single Unicode scalar value (`char` in Rust):
1 byte up to U+007F, 2 up to U+07FF, 3 up to U+FFFF, 4 otherwise. -/
def utf8_len (c : Char) : Nat :=
  if c.toNat ≤ 0x7F then 1
  else if c.toNat ≤ 0x7FF then 2
  else if c.toNat ≤ 0xFFFF then 3
  else 4

/-- UTF-8 byte length of a string (Rust `String::len`). -/
def str_len (s : List Char) : Nat := (s.map utf8_len).sum

/-- Rust `str::find(&needle)`: the UTF-8 BYTE index of the first occurrence of
`needle` as a substring of `hay` (matches of valid UTF-8 always fall on
character boundaries, so scanning character positions is faithful). -/
def str_find (hay needle : List Char) : Option Nat :=
  if needle.isPrefixOf hay then some 0
  else
    match hay with
    | [] => none
    | c :: rest => (str_find rest needle).map (fun n => n + utf8_len c)

/-- UTF-16 encoding of a single Unicode scalar value: one code unit below
U+10000, otherwise a high/low surrogate pair. -/
def encode_char_utf16 (c : Char) : List Nat :=
  if c.toNat < 0x10000 then [c.toNat]
  else [0xD800 + (c.toNat - 0x10000) / 0x400, 0xDC00 + (c.toNat - 0x10000) % 0x400]

/-- Rust `str::encode_utf16().collect()`: the UTF-16 code-unit sequence of a
string. -/
def encode_utf16 (s : List Char) : List Nat := (s.map encode_char_utf16).flatten

/-- Rust `String::from_utf16`: decode a UTF-16 code-unit sequence, failing
(`none`) on any unpaired surrogate. -/
def from_utf16 : List Nat → Option (List Char)
  | [] => some []
  | [u] =>
    if u < 0xD800 ∨ 0xE000 ≤ u then some [Char.ofNat u] else none
  | u :: u2 :: rest =>
    if u < 0xD800 ∨ 0xE000 ≤ u then
      (from_utf16 (u2 :: rest)).map (fun l => Char.ofNat u :: l)
    else if u < 0xDC00 ∧ 0xDC00 ≤ u2 ∧ u2 < 0xE000 then
      (from_utf16 rest).map
        (fun l => Char.ofNat (0x10000 + (u - 0xD800) * 0x400 + (u2 - 0xDC00)) :: l)
    else none

/-- Rust `char::is_whitespace`: the Unicode `White_Space` property. -/
def is_rust_whitespace (c : Char) : Bool :=
  decide ((0x09 ≤ c.toNat ∧ c.toNat ≤ 0x0D) ∨ c.toNat = 0x20 ∨ c.toNat = 0x85 ∨
    c.toNat = 0xA0 ∨ c.toNat = 0x1680 ∨ (0x2000 ≤ c.toNat ∧ c.toNat ≤ 0x200A) ∨
    c.toNat = 0x2028 ∨ c.toNat = 0x2029 ∨ c.toNat = 0x202F ∨ c.toNat = 0x205F ∨
    c.toNat = 0x3000)

/-- Rust `str::split_whitespace`: split on `White_Space` characters and drop
empty pieces. -/
def split_whitespace (s : List Char) : List (List Char) :=
  (s.splitOnP is_rust_whitespace).filter (fun w => !w.isEmpty)

/-- A bot-command entity as surfaced by `Text::get_bot_commands`: the command
token (with leading slash) and the optional bot-name suffix. -/
structure BotCommand where
  command : List Char
  bot_name : Option (List Char)
deriving DecidableEq

/-- Modelled from the spec: the message text body. The `Text` type is not
under `src/`; per the spec the input is "text plus an ordered list of entity
descriptors", of which the parser consumes only the recognized bot-command
entities, so we carry `data` and that ordered list directly. -/
structure Text where
  data : List Char
  bot_commands : List BotCommand
deriving DecidableEq

/-- Modelled from the spec: `Text::get_bot_commands` returns the recognized
command entities of the text, or `none` when there are none (step 1 of the
spec algorithm: "the text has no recognized command entities" fails with
`NotFound`; the source indexes `commands[0]` unconditionally, so a returned
list is never empty). -/
def Text.get_bot_commands (t : Text) : Option (List BotCommand) :=
  if t.bot_commands.isEmpty then none else some t.bot_commands

/-- Modelled from the spec: a chat message "that may or may not carry a text
body"; `Message` is not under `src/`, and the parser touches it only through
`get_text`. -/
structure Message where
  text : Option Text
deriving DecidableEq

/-- Modelled from the spec: `Message::get_text` returns the optional text
body. -/
def Message.get_text (m : Message) : Option Text := m.text

/-- A parsed command: name with leading slash, whitespace-split arguments,
and the originating message (`Command` in `src/types/message/command.rs`). -/
structure Command where
  name : List Char
  args : List (List Char)
  message : Message
deriving DecidableEq

/-- Errors of command parsing (`CommandError` in
`src/types/message/command.rs`): `Utf16` wraps Rust's opaque
`FromUtf16Error`, carried here without payload. -/
inductive CommandError where
  | NotFound
  | Utf16
  | MismatchedQuotes
deriving DecidableEq

/-- `impl TryFrom<Message> for Command` from `src/types/message/command.rs`.
The empty-list branch is unreachable: `Text.get_bot_commands` never returns
`some []` (the source indexes `commands[0]` without a check). -/
def Command.try_from (message : Message) : Except CommandError Command :=
  match message.get_text.map (fun text => (text.get_bot_commands, text)) with
  | some (some commands, text) =>
    match commands with
    | [] => Except.error CommandError.NotFound
    | command :: _ =>
      let name := command.command
      let offset := (str_find text.data name).getD 0
      let length := str_len name + ((command.bot_name.map (fun x => str_len x + 1)).getD 0)
      let pos := offset + length
      let raw_args : List Nat := (encode_utf16 text.data).drop pos
      match from_utf16 raw_args with
      | none => Except.error CommandError.Utf16
      | some decoded => Except.ok { name := name, args := split_whitespace decoded, message := message }
  | _ => Except.error CommandError.NotFound

/-- The end offset `pos = offset + length` that `try_from` computes for the
first command entity of a message (for analysis of the parser; `none` when
the parser would return `NotFound`). -/
def command_pos (m : Message) : Option Nat :=
  match m.get_text.map (fun text => (text.get_bot_commands, text)) with
  | some (some (command :: _), text) =>
    some ((str_find text.data command.command).getD 0 +
      (str_len command.command + ((command.bot_name.map (fun x => str_len x + 1)).getD 0)))
  | _ => none

/-- The UTF-16 code units remaining after the computed end offset, exactly as
`try_from` collects them before decoding. -/
def raw_args_of (m : Message) : Option (List Nat) :=
  match m.get_text, command_pos m with
  | some text, some pos => some ((encode_utf16 text.data).drop pos)
  | _, _ => none

/-- The `Integer` alias of the source crate. -/
abbrev Integer := Int

/-- Modelled from the spec: a caption parse mode; `ParseMode` is not under
`src/`, only its use as an optional field value matters here. -/
inductive ParseMode where
  | Markdown
  | MarkdownV2
  | Html
deriving DecidableEq

/-- Modelled from the spec: an entity descriptor "with kind, UTF-16 start
offset, UTF-16 length"; `TextEntity` is not under `src/`, only its use as a
list element matters here. -/
structure TextEntity where
  offset : Nat
  length : Nat
deriving DecidableEq

/-- The `TextEntities` collection of the source crate: `value.into_iter().collect()`. -/
abbrev TextEntities := List TextEntity

/-- Modelled from the spec: the user's shipping address record;
`ShippingAddress` is not under `src/`, only its use as an optional field
value matters here. -/
structure ShippingAddress where
  country_code : List Char
deriving DecidableEq

/-- `InputMediaVideo` from `src/types/media/input/video.rs`: a record of
optional fields. -/
structure InputMediaVideo where
  caption : Option (List Char)
  caption_entities : Option TextEntities
  duration : Option Integer
  has_spoiler : Option Bool
  height : Option Integer
  parse_mode : Option ParseMode
  show_caption_above_media : Option Bool
  supports_streaming : Option Bool
  width : Option Integer
deriving DecidableEq

/-- `#[derive(Default)]` for `InputMediaVideo`: every optional field absent. -/
def InputMediaVideo.default : InputMediaVideo :=
  ⟨none, none, none, none, none, none, none, none, none⟩

def InputMediaVideo.with_caption (v : InputMediaVideo) (value : List Char) : InputMediaVideo :=
  { v with caption := some value }

def InputMediaVideo.with_caption_entities (v : InputMediaVideo) (value : List TextEntity) :
    InputMediaVideo :=
  { v with caption_entities := some value, parse_mode := none }

def InputMediaVideo.with_caption_parse_mode (v : InputMediaVideo) (value : ParseMode) :
    InputMediaVideo :=
  { v with parse_mode := some value, caption_entities := none }

def InputMediaVideo.with_duration (v : InputMediaVideo) (value : Integer) : InputMediaVideo :=
  { v with duration := some value }

def InputMediaVideo.with_has_spoiler (v : InputMediaVideo) (value : Bool) : InputMediaVideo :=
  { v with has_spoiler := some value }

def InputMediaVideo.with_height (v : InputMediaVideo) (value : Integer) : InputMediaVideo :=
  { v with height := some value }

def InputMediaVideo.with_show_caption_above_media (v : InputMediaVideo) (value : Bool) :
    InputMediaVideo :=
  { v with show_caption_above_media := some value }

def InputMediaVideo.with_supports_streaming (v : InputMediaVideo) (value : Bool) :
    InputMediaVideo :=
  { v with supports_streaming := some value }

def InputMediaVideo.with_width (v : InputMediaVideo) (value : Integer) : InputMediaVideo :=
  { v with width := some value }

/-- `OrderInfo` from `src/types/payment/order.rs`. -/
structure OrderInfo where
  email : Option (List Char)
  name : Option (List Char)
  phone_number : Option (List Char)
  shipping_address : Option ShippingAddress
deriving DecidableEq

/-- `#[derive(Default)]` for `OrderInfo`. -/
def OrderInfo.default : OrderInfo := ⟨none, none, none, none⟩

def OrderInfo.with_email (o : OrderInfo) (value : List Char) : OrderInfo :=
  { o with email := some value }

def OrderInfo.with_name (o : OrderInfo) (value : List Char) : OrderInfo :=
  { o with name := some value }

def OrderInfo.with_phone_number (o : OrderInfo) (value : List Char) : OrderInfo :=
  { o with phone_number := some value }

def OrderInfo.with_shipping_address (o : OrderInfo) (value : ShippingAddress) : OrderInfo :=
  { o with shipping_address := some value }

/-- One builder-setter call on `InputMediaVideo`, for reasoning about every
value reachable from the default by a sequence of setter calls. -/
inductive VideoSetter where
  | caption (value : List Char)
  | caption_entities (value : List TextEntity)
  | caption_parse_mode (value : ParseMode)
  | duration (value : Integer)
  | has_spoiler (value : Bool)
  | height (value : Integer)
  | show_caption_above_media (value : Bool)
  | supports_streaming (value : Bool)
  | width (value : Integer)

/-- Apply one builder-setter call. -/
def apply_setter (v : InputMediaVideo) : VideoSetter → InputMediaVideo
  | .caption value => v.with_caption value
  | .caption_entities value => v.with_caption_entities value
  | .caption_parse_mode value => v.with_caption_parse_mode value
  | .duration value => v.with_duration value
  | .has_spoiler value => v.with_has_spoiler value
  | .height value => v.with_height value
  | .show_caption_above_media value => v.with_show_caption_above_media value
  | .supports_streaming value => v.with_supports_streaming value
  | .width value => v.with_width value

/-- Apply a sequence of builder-setter calls in order. -/
def apply_setters (v : InputMediaVideo) (calls : List VideoSetter) : InputMediaVideo :=
  calls.foldl apply_setter v

/-! ### Concrete messages used by the claims -/

/-- Text `"😀 /start ab"` with one bot-command entity `/start`: an emoji
(a surrogate pair, four UTF-8 bytes but two UTF-16 code units) precedes the
command. -/
def msg_astonished : Message := ⟨some ⟨"😀 /start ab".toList, [⟨"/start".toList, none⟩]⟩⟩

/-- Text `"/start@mybot arg1"` with one bot-command entity `/start`
targeting bot `mybot`. -/
def msg_botname : Message := ⟨some ⟨"/start@mybot arg1".toList, [⟨"/start".toList, some "mybot".toList⟩]⟩⟩

/-- Text `"é/start😀"` with entity `/start`: the accented letter shifts the
byte offset past the UTF-16 offset, so the code-unit skip cuts the trailing
surrogate pair in half. -/
def msg_cut_surrogate : Message := ⟨some ⟨"é/start😀".toList, [⟨"/start".toList, none⟩]⟩⟩

/-- Text `"/ping"` consisting only of the command. -/
def msg_ping : Message := ⟨some ⟨"/ping".toList, [⟨"/ping".toList, none⟩]⟩⟩

/-- Text `"/cmd a  b"` with one bot-command entity `/cmd`. -/
def msg_plain : Message := ⟨some ⟨"/cmd a  b".toList, [⟨"/cmd".toList, none⟩]⟩⟩

/-! ### Characterization lemmas for `Command.try_from` -/

lemma try_from_no_text : Command.try_from ⟨none⟩ = Except.error CommandError.NotFound := rfl

lemma try_from_no_commands (d : List Char) :
    Command.try_from ⟨some ⟨d, []⟩⟩ = Except.error CommandError.NotFound := rfl

lemma try_from_cons (d : List Char) (c : BotCommand) (rest : List BotCommand) :
    Command.try_from ⟨some ⟨d, c :: rest⟩⟩ =
      (match from_utf16 ((encode_utf16 d).drop
          ((str_find d c.command).getD 0 +
            (str_len c.command + ((c.bot_name.map (fun x => str_len x + 1)).getD 0)))) with
       | none => Except.error CommandError.Utf16
       | some decoded =>
         Except.ok ⟨c.command, split_whitespace decoded, ⟨some ⟨d, c :: rest⟩⟩⟩) := rfl

lemma command_pos_cons (d : List Char) (c : BotCommand) (rest : List BotCommand) :
    command_pos ⟨some ⟨d, c :: rest⟩⟩ =
      some ((str_find d c.command).getD 0 +
        (str_len c.command + ((c.bot_name.map (fun x => str_len x + 1)).getD 0))) := rfl

lemma raw_args_of_cons (d : List Char) (c : BotCommand) (rest : List BotCommand) :
    raw_args_of ⟨some ⟨d, c :: rest⟩⟩ =
      some ((encode_utf16 d).drop
        ((str_find d c.command).getD 0 +
          (str_len c.command + ((c.bot_name.map (fun x => str_len x + 1)).getD 0)))) := rfl

lemma raw_args_of_no_text : raw_args_of ⟨none⟩ = none := rfl

lemma raw_args_of_no_commands (d : List Char) : raw_args_of ⟨some ⟨d, []⟩⟩ = none := rfl

/-- `split_whitespace` never produces an empty word: it filters on
non-emptiness. -/
lemma nil_not_mem_split_whitespace (s : List Char) : [] ∉ split_whitespace s := by
  intro h
  have h2 := (List.mem_filter.mp h).2
  simp at h2

/-! ### Claim theorems -/

/-- C1: the offset arithmetic does NOT land on the end of the command token
in UTF-16 code units when multi-byte characters precede the command.
`str::find` and `str::len` yield UTF-8 BYTE counts, so the computed `pos` is
11 here, while the command token `"😀 /start"` ends at UTF-16 offset 9;
skipping the true boundary yields the remainder `" ab"` (args `["ab"]`),
but the code skips 11 code units and returns args `["b"]`. -/
theorem command_utf16_offset_divergence :
  Command.try_from msg_astonished =
    Except.ok ⟨"/start".toList, ["b".toList], msg_astonished⟩ ∧
  command_pos msg_astonished = some 11 ∧
  (encode_utf16 ("😀 /start".toList)).length = 9 ∧
  from_utf16 ((encode_utf16 ("😀 /start ab".toList)).drop 9) = some (" ab".toList) ∧
  split_whitespace (" ab".toList) = ["ab".toList] :=
⟨rfl, rfl, rfl, rfl, rfl⟩

/-- C3: on text `"/start@mybot arg1"` with entity `/start` and bot-name
suffix `mybot`, parsing succeeds with name `"/start"` and args `["arg1"]`,
and the computed end offset equals name length plus suffix length plus 1. -/
theorem command_botname_suffix_example :
  Command.try_from msg_botname =
    Except.ok ⟨"/start".toList, ["arg1".toList], msg_botname⟩ ∧
  command_pos msg_botname =
    some (str_len ("/start".toList) + (str_len ("mybot".toList) + 1)) :=
⟨rfl, rfl⟩

/-- C9: `try_from` is a deterministic function of the message value: equal
inputs give equal results (the embedding is pure, so no state outside the
returned value exists to be modified). -/
theorem try_from_deterministic (m₁ m₂ : Message) (h : m₁ = m₂) :
    Command.try_from m₁ = Command.try_from m₂ := by rw [h]

/-- Witness for C9 at a concrete message. -/
theorem try_from_deterministic_witness :
    Command.try_from msg_plain = Command.try_from msg_plain :=
try_from_deterministic msg_plain msg_plain rfl

/-- C5: a message with no text, and a message whose text has an empty
bot-command entity list, both parse to `NotFound`. -/
theorem command_not_found_cases :
  (∀ m : Message, m.text = none →
    Command.try_from m = Except.error CommandError.NotFound) ∧
  (∀ (m : Message) (t : Text), m.text = some t → t.bot_commands = [] →
    Command.try_from m = Except.error CommandError.NotFound) := by
  constructor
  · intro m h
    rcases m with ⟨_ | t⟩
    · exact try_from_no_text
    · exact Option.noConfusion h
  · intro m t h1 h2
    rcases m with ⟨_ | t2⟩
    · exact Option.noConfusion h1
    · have ht : t2 = t := Option.some.inj h1
      subst ht
      rcases t2 with ⟨d, cs⟩
      have hcs : cs = [] := h2
      subst hcs
      exact try_from_no_commands d

/-- Witness for C5: a message without text and a message whose text has no
command entities. -/
theorem command_not_found_cases_witness :
    Command.try_from ⟨none⟩ = Except.error CommandError.NotFound ∧
    Command.try_from ⟨some ⟨"hi".toList, []⟩⟩ = Except.error CommandError.NotFound :=
⟨command_not_found_cases.1 ⟨none⟩ rfl,
 command_not_found_cases.2 ⟨some ⟨"hi".toList, []⟩⟩ ⟨"hi".toList, []⟩ rfl rfl⟩

/-- C6: on success, `args` never contains an empty string, and on the text
`"/ping"` consisting only of the command, `args` is the empty sequence. -/
theorem command_args_no_empty :
  (∀ (m : Message) (cmd : Command),
    Command.try_from m = Except.ok cmd → [] ∉ cmd.args) ∧
  Command.try_from msg_ping = Except.ok ⟨"/ping".toList, [], msg_ping⟩ := by
  constructor
  · intro m cmd h
    rcases m with ⟨_ | ⟨d, cs⟩⟩
    · rw [try_from_no_text] at h
      exact Except.noConfusion h
    · rcases cs with _ | ⟨c, rest⟩
      · rw [try_from_no_commands] at h
        exact Except.noConfusion h
      · rw [try_from_cons] at h
        split at h
        · exact Except.noConfusion h
        · have hc := Except.ok.inj h
          subst hc
          exact nil_not_mem_split_whitespace _
  · rfl

/-- Witness for C6 at the `"/ping"` message. -/
theorem command_args_no_empty_witness :
    Command.try_from msg_ping = Except.ok ⟨"/ping".toList, [], msg_ping⟩ ∧
    [] ∉ (Command.mk "/ping".toList [] msg_ping).args :=
⟨rfl, command_args_no_empty.1 msg_ping ⟨"/ping".toList, [], msg_ping⟩ rfl⟩

/-- The remainder `"'arg1 v' arg2"` written as a character list (an ASCII
apostrophe, then `arg1 v`, an apostrophe, then ` arg2`). -/
def quoted_remainder : List Char :=
  Char.ofNat 39 :: "arg1 v".toList ++ (Char.ofNat 39 :: " arg2".toList)

/-- C7: on success, `args` is exactly the unconditional whitespace-split of
the decoded remainder; in particular a quoted remainder is split inside the
quotes, with no quoting support. -/
theorem command_args_whitespace_split :
  (∀ (m : Message) (cmd : Command) (raw : List Char),
    Command.try_from m = Except.ok cmd →
    (raw_args_of m).bind from_utf16 = some raw →
    cmd.args = split_whitespace raw) ∧
  split_whitespace quoted_remainder =
    [Char.ofNat 39 :: "arg1".toList, "v".toList ++ [Char.ofNat 39], "arg2".toList] := by
  constructor
  · intro m cmd raw h hraw
    rcases m with ⟨_ | ⟨d, cs⟩⟩
    · rw [try_from_no_text] at h
      exact Except.noConfusion h
    · rcases cs with _ | ⟨c, rest⟩
      · rw [try_from_no_commands] at h
        exact Except.noConfusion h
      · rw [raw_args_of_cons] at hraw
        rw [try_from_cons] at h
        split at h
        · exact Except.noConfusion h
        · have hc := Except.ok.inj h
          subst hc
          rename_i decoded heq
          simp only [Option.some_bind] at hraw
          rw [heq] at hraw
          have hd := Option.some.inj hraw
          rw [hd]
  · rfl

/-- Witness for C7 at the message `"/cmd a  b"`. -/
theorem command_args_whitespace_split_witness :
    Command.try_from msg_plain =
      Except.ok ⟨"/cmd".toList, ["a".toList, "b".toList], msg_plain⟩ ∧
    (raw_args_of msg_plain).bind from_utf16 = some " a  b".toList ∧
    (Command.mk "/cmd".toList ["a".toList, "b".toList] msg_plain).args =
      split_whitespace (" a  b".toList) :=
⟨rfl, rfl,
 command_args_whitespace_split.1 msg_plain
   ⟨"/cmd".toList, ["a".toList, "b".toList], msg_plain⟩ " a  b".toList rfl rfl⟩

/-- C2: only the first entity in entity-list order is honored: the parse
outcome (name, args, or the error) is the same as if the first entity were
the only one, for every tail of further entities, and on success the name is
the first entity's command. -/
theorem command_first_entity_only (t : List Char) (c : BotCommand) (rest : List BotCommand) :
  Except.map (fun cmd => (cmd.name, cmd.args)) (Command.try_from ⟨some ⟨t, c :: rest⟩⟩) =
    Except.map (fun cmd => (cmd.name, cmd.args)) (Command.try_from ⟨some ⟨t, [c]⟩⟩) ∧
  Except.map Command.name (Command.try_from ⟨some ⟨t, c :: rest⟩⟩) =
    Except.map (fun _ => c.command) (Command.try_from ⟨some ⟨t, c :: rest⟩⟩) := by
  rw [try_from_cons, try_from_cons]
  constructor
  · split <;> rfl
  · split <;> rfl

/-- C4: a parse failure is always `NotFound` or `Utf16` (never
`MismatchedQuotes`), and the `Utf16` failure happens exactly when the UTF-16
code units remaining after the computed end offset do not decode. -/
theorem command_error_taxonomy (m : Message) :
  (∀ e, Command.try_from m = Except.error e →
    e = CommandError.NotFound ∨ e = CommandError.Utf16) ∧
  (Command.try_from m = Except.error CommandError.Utf16 ↔
    ∃ u, raw_args_of m = some u ∧ from_utf16 u = none) := by
  rcases m with ⟨_ | ⟨d, cs⟩⟩
  · constructor
    · intro e h
      rw [try_from_no_text] at h
      exact Or.inl (Except.error.inj h).symm
    · constructor
      · intro h
        rw [try_from_no_text] at h
        exact CommandError.noConfusion (Except.error.inj h)
      · rintro ⟨u, hu, _⟩
        rw [raw_args_of_no_text] at hu
        exact Option.noConfusion hu
  · rcases cs with _ | ⟨c, rest⟩
    · constructor
      · intro e h
        rw [try_from_no_commands] at h
        exact Or.inl (Except.error.inj h).symm
      · constructor
        · intro h
          rw [try_from_no_commands] at h
          exact CommandError.noConfusion (Except.error.inj h)
        · rintro ⟨u, hu, _⟩
          rw [raw_args_of_no_commands] at hu
          exact Option.noConfusion hu
    · have hres := try_from_cons d c rest
      split at hres
      · rename_i heq
        constructor
        · intro e h
          rw [hres] at h
          exact Or.inr (Except.error.inj h).symm
        · constructor
          · intro _
            exact ⟨_, raw_args_of_cons d c rest, heq⟩
          · intro _
            exact hres
      · rename_i decoded heq
        constructor
        · intro e h
          rw [hres] at h
          exact Except.noConfusion h
        · constructor
          · intro h
            rw [hres] at h
            exact Except.noConfusion h
          · rintro ⟨u, hu, hdec⟩
            rw [raw_args_of_cons] at hu
            have hueq := Option.some.inj hu
            rw [← hueq, heq] at hdec
            exact Option.noConfusion hdec

/-- Witness for C4 at a message whose code-unit skip cuts a surrogate pair:
the parse fails with the `Utf16` error, and that error is in the two-member
taxonomy. -/
theorem command_error_taxonomy_witness :
    Command.try_from msg_cut_surrogate = Except.error CommandError.Utf16 ∧
    (CommandError.Utf16 = CommandError.NotFound ∨
      CommandError.Utf16 = CommandError.Utf16) :=
⟨(command_error_taxonomy msg_cut_surrogate).2.mpr
   ⟨(encode_utf16 ("é/start😀".toList)).drop 8, rfl, rfl⟩,
 (command_error_taxonomy msg_cut_surrogate).1 CommandError.Utf16
   ((command_error_taxonomy msg_cut_surrogate).2.mpr
     ⟨(encode_utf16 ("é/start😀".toList)).drop 8, rfl, rfl⟩)⟩

/-- A video record with a caption parse mode already set. -/
def video_md : InputMediaVideo := InputMediaVideo.default.with_caption_parse_mode ParseMode.Markdown

/-- C8 counterexample: `with_caption_entities` does NOT leave every other
field unchanged — on a record whose parse mode is set, it resets the
`parse_mode` field to `none`. -/
theorem setter_frame_counterexample :
    (video_md.with_caption_entities []).parse_mode ≠ video_md.parse_mode := by
  decide

/-- C8 amended: every `OrderInfo` setter and every `InputMediaVideo` setter
replaces exactly the field it names and leaves all other fields unchanged,
EXCEPT that `with_caption_entities` additionally resets `parse_mode` to
`none` and `with_caption_parse_mode` additionally resets `caption_entities`
to `none`. -/
theorem setters_replace_named_field :
  (∀ (o : OrderInfo) (value : List Char),
    o.with_email value = { o with email := some value }) ∧
  (∀ (o : OrderInfo) (value : List Char),
    o.with_name value = { o with name := some value }) ∧
  (∀ (o : OrderInfo) (value : List Char),
    o.with_phone_number value = { o with phone_number := some value }) ∧
  (∀ (o : OrderInfo) (value : ShippingAddress),
    o.with_shipping_address value = { o with shipping_address := some value }) ∧
  (∀ (v : InputMediaVideo) (value : List Char),
    v.with_caption value = { v with caption := some value }) ∧
  (∀ (v : InputMediaVideo) (value : List TextEntity),
    v.with_caption_entities value =
      { v with caption_entities := some value, parse_mode := none }) ∧
  (∀ (v : InputMediaVideo) (value : ParseMode),
    v.with_caption_parse_mode value =
      { v with parse_mode := some value, caption_entities := none }) ∧
  (∀ (v : InputMediaVideo) (value : Integer),
    v.with_duration value = { v with duration := some value }) ∧
  (∀ (v : InputMediaVideo) (value : Bool),
    v.with_has_spoiler value = { v with has_spoiler := some value }) ∧
  (∀ (v : InputMediaVideo) (value : Integer),
    v.with_height value = { v with height := some value }) ∧
  (∀ (v : InputMediaVideo) (value : Bool),
    v.with_show_caption_above_media value =
      { v with show_caption_above_media := some value }) ∧
  (∀ (v : InputMediaVideo) (value : Bool),
    v.with_supports_streaming value = { v with supports_streaming := some value }) ∧
  (∀ (v : InputMediaVideo) (value : Integer),
    v.with_width value = { v with width := some value }) :=
⟨fun _ _ => rfl, fun _ _ => rfl, fun _ _ => rfl, fun _ _ => rfl, fun _ _ => rfl,
 fun _ _ => rfl, fun _ _ => rfl, fun _ _ => rfl, fun _ _ => rfl, fun _ _ => rfl,
 fun _ _ => rfl, fun _ _ => rfl, fun _ _ => rfl⟩

/-- One setter call preserves "caption entities and parse mode are not both
set". -/
lemma apply_setter_exclusive (s : VideoSetter) (v : InputMediaVideo)
    (h : v.caption_entities = none ∨ v.parse_mode = none) :
    (apply_setter v s).caption_entities = none ∨ (apply_setter v s).parse_mode = none := by
  cases s <;> first | exact Or.inr rfl | exact Or.inl rfl | exact h

/-- A sequence of setter calls preserves "caption entities and parse mode
are not both set". -/
lemma apply_setters_exclusive (calls : List VideoSetter) :
    ∀ v : InputMediaVideo, (v.caption_entities = none ∨ v.parse_mode = none) →
      (apply_setters v calls).caption_entities = none ∨
      (apply_setters v calls).parse_mode = none := by
  induction calls with
  | nil => intro v h; exact h
  | cons s rest ih => intro v h; exact ih _ (apply_setter_exclusive s v h)

/-- C10: on every record reachable from the default by builder-setter calls,
`caption_entities` and `parse_mode` are never both set; `with_caption_entities`
leaves `parse_mode` unset, `with_caption_parse_mode` leaves
`caption_entities` unset, and no other setter touches either field. -/
theorem video_caption_modes_exclusive :
  (∀ calls : List VideoSetter,
    (apply_setters InputMediaVideo.default calls).caption_entities = none ∨
    (apply_setters InputMediaVideo.default calls).parse_mode = none) ∧
  (∀ (v : InputMediaVideo) (value : List TextEntity),
    (v.with_caption_entities value).parse_mode = none) ∧
  (∀ (v : InputMediaVideo) (value : ParseMode),
    (v.with_caption_parse_mode value).caption_entities = none) ∧
  (∀ (v : InputMediaVideo) (value : List Char),
    (v.with_caption value).caption_entities = v.caption_entities ∧
    (v.with_caption value).parse_mode = v.parse_mode) ∧
  (∀ (v : InputMediaVideo) (value : Integer),
    (v.with_duration value).caption_entities = v.caption_entities ∧
    (v.with_duration value).parse_mode = v.parse_mode) ∧
  (∀ (v : InputMediaVideo) (value : Bool),
    (v.with_has_spoiler value).caption_entities = v.caption_entities ∧
    (v.with_has_spoiler value).parse_mode = v.parse_mode) ∧
  (∀ (v : InputMediaVideo) (value : Integer),
    (v.with_height value).caption_entities = v.caption_entities ∧
    (v.with_height value).parse_mode = v.parse_mode) ∧
  (∀ (v : InputMediaVideo) (value : Bool),
    (v.with_show_caption_above_media value).caption_entities = v.caption_entities ∧
    (v.with_show_caption_above_media value).parse_mode = v.parse_mode) ∧
  (∀ (v : InputMediaVideo) (value : Bool),
    (v.with_supports_streaming value).caption_entities = v.caption_entities ∧
    (v.with_supports_streaming value).parse_mode = v.parse_mode) ∧
  (∀ (v : InputMediaVideo) (value : Integer),
    (v.with_width value).caption_entities = v.caption_entities ∧
    (v.with_width value).parse_mode = v.parse_mode) :=
⟨fun calls => apply_setters_exclusive calls InputMediaVideo.default (Or.inl rfl),
 fun _ _ => rfl, fun _ _ => rfl, fun _ _ => ⟨rfl, rfl⟩, fun _ _ => ⟨rfl, rfl⟩,
 fun _ _ => ⟨rfl, rfl⟩, fun _ _ => ⟨rfl, rfl⟩, fun _ _ => ⟨rfl, rfl⟩,
 fun _ _ => ⟨rfl, rfl⟩, fun _ _ => ⟨rfl, rfl⟩⟩
